import Mathlib

/-!
Verification of the multi-agent research assistant core: a shallow
embedding of the shared research memory
(`backend/features/memory/research_memory.py`), the analyst heuristics
(`backend/features/agents/analyst.py`), the synthesizer report assembly
(`backend/features/agents/synthesizer.py`), and the orchestrator failure
path (`backend/features/orchestration/research_crew.py`).

Python dictionaries are modelled as insertion-ordered association lists,
Python numbers as rationals, and raised exceptions as explicit error
values paired with the state reached when the exception propagates.
-/

/-! ### Association lists with Python `dict` semantics -/

/-- `d[k]` / `d.get(k)`: first (and only) binding of `k`, if any. -/
def lookupKey {α : Type} : List (String × α) → String → Option α
  | [], _ => none
  | (k, v) :: tl, k' => if k = k' then some v else lookupKey tl k'

/-- `d[k] = v`: overwrite in place when `k` is present, else append,
as Python dict assignment (insertion order preserved). -/
def setKey {α : Type} : List (String × α) → String → α → List (String × α)
  | [], k, v => [(k, v)]
  | (k', v') :: tl, k, v =>
      if k' = k then (k, v) :: tl else (k', v') :: setKey tl k v

/-- `m.update(d)`: merge `d` into `m` key by key, as Python `dict.update`
with a mapping argument. -/
def updateKeys {α : Type} (m d : List (String × α)) : List (String × α) :=
  d.foldl (fun acc p => setKey acc p.1 p.2) m

/-! ### String helpers mirroring the Python string methods used -/

/-- Python `str.lower()` (the sources only use ASCII text). -/
def strLower (s : String) : String := ⟨s.data.map Char.toLower⟩

/-- Python `str.upper()`. -/
def strUpper (s : String) : String := ⟨s.data.map Char.toUpper⟩

/-- Helper for `strContains`: does `pat` occur inside the character list? -/
def listContains (pat : List Char) : List Char → Bool
  | [] => pat.isEmpty
  | c :: tl => pat.isPrefixOf (c :: tl) || listContains pat tl

/-- Python `pat in s` on strings: substring containment. -/
def strContains (s pat : String) : Bool := listContains pat.data s.data

/-- Python `str.capitalize()`: first character upper-cased, the rest
lower-cased. -/
def pyCapitalize (s : String) : String :=
  match s.data with
  | [] => ""
  | c :: rest => ⟨c.toUpper :: rest.map Char.toLower⟩

/-- Python `s.strip(c)` for a single strip character `c`. -/
def pyStripChar (s : String) (c : Char) : String :=
  ⟨((s.data.dropWhile (· = c)).reverse.dropWhile (· = c)).reverse⟩

/-- Helper for `pySplitWs`: accumulate the current word (reversed) while
scanning. -/
def wordsAux : List Char → List Char → List String
  | [], acc => if acc.isEmpty then [] else [⟨acc.reverse⟩]
  | c :: tl, acc =>
      if c.isWhitespace then
        (if acc.isEmpty then [] else [⟨acc.reverse⟩]) ++ wordsAux tl []
      else wordsAux tl (c :: acc)

/-- Python `str.split()` with no argument: split on whitespace runs,
discarding empty pieces. -/
def pySplitWs (s : String) : List String := wordsAux s.data []

/-- A single-quote character as a string (used by the executive-summary
template). -/
def squote : String := ⟨[Char.ofNat 39]⟩

/-! ### Dynamic values

Memory cells hold `Any`-typed Python data; `Value` is the corresponding
closed universe of JSON-like payloads. -/

inductive Value : Type where
  | vNone : Value
  | vBool : Bool → Value
  | vInt : Int → Value
  | vRat : ℚ → Value
  | vStr : String → Value
  | vList : List Value → Value
  | vMap : List (String × Value) → Value

/-! ### The research memory store (`research_memory.py`) -/

/-- A short-term memory cell (`store_short_term` writes these). -/
structure MemoryEntry where
  value : Value
  timestamp : String
  metadata : List (String × Value)

/-- A shared-namespace cell (`share_data` writes these). -/
structure SharedEntry where
  data : Value
  timestamp : String
  priority : String
  accessed_count : Nat

/-- The three namespaces of `ResearchMemory`. -/
structure ResearchMemory where
  short_term : List (String × MemoryEntry)
  long_term : List (String × Value)
  shared_data : List (String × SharedEntry)

/-- `ResearchMemory.__init__`: the four pre-seeded long-term categories. -/
def initMemory : ResearchMemory :=
  { short_term := []
  , long_term :=
      [ ("reliable_sources", Value.vList [])
      , ("search_patterns", Value.vList [])
      , ("topic_knowledge", Value.vMap [])
      , ("quality_scores", Value.vMap []) ]
  , shared_data := [] }

/-- `store_short_term(key, value, metadata)`; the call-time timestamp is
passed in as `now`. -/
def store_short_term (m : ResearchMemory) (key : String) (value : Value)
    (metadata : List (String × Value)) (now : String) : ResearchMemory :=
  { m with short_term := setKey m.short_term key ⟨value, now, metadata⟩ }

/-- `get_short_term(key)`: the stored value, or `none` when absent. -/
def get_short_term (m : ResearchMemory) (key : String) : Option Value :=
  (lookupKey m.short_term key).map MemoryEntry.value

/-- Exceptions escaping `store_long_term`: the explicit
`ValueError("Invalid operation ...")` raise, and the `TypeError` Python
raises when `dict.update` receives a non-mapping argument. -/
inductive MemError : Type where
  | invalidOperation (operation category : String) : MemError
  | typeError : MemError

/-- `store_long_term(category, data, operation)`.  Returns the state the
store is left in together with the error that propagates, if any: an
unknown category is first auto-created (empty list for `append`, empty
map otherwise), so a later raise still leaves that creation behind. -/
def store_long_term (m : ResearchMemory) (category : String) (data : Value)
    (operation : String) : ResearchMemory × Option MemError :=
  let lt :=
    if (lookupKey m.long_term category).isSome then m.long_term
    else
      setKey m.long_term category
        (if operation = "append" then Value.vList [] else Value.vMap [])
  let cur := (lookupKey lt category).getD (Value.vMap [])
  if operation = "append" then
    match cur with
    | Value.vList xs =>
        ({ m with long_term := setKey lt category (Value.vList (xs ++ [data])) },
         none)
    | _ =>
        ({ m with long_term := lt },
         some (MemError.invalidOperation operation category))
  else if operation = "update" then
    match cur with
    | Value.vMap kvs =>
        match data with
        | Value.vMap dkvs =>
            ({ m with
                long_term := setKey lt category (Value.vMap (updateKeys kvs dkvs)) },
             none)
        | _ => ({ m with long_term := lt }, some MemError.typeError)
    | _ =>
        ({ m with long_term := lt },
         some (MemError.invalidOperation operation category))
  else if operation = "set" then
    ({ m with long_term := setKey lt category data }, none)
  else
    ({ m with long_term := lt },
     some (MemError.invalidOperation operation category))

/-- `get_long_term(category)`. -/
def get_long_term (m : ResearchMemory) (category : String) : Option Value :=
  lookupKey m.long_term category

/-- `share_data(agent_id, data, priority)`: upsert with
`accessed_count = 0`. -/
def share_data (m : ResearchMemory) (agent_id : String) (data : Value)
    (priority : String) (now : String) : ResearchMemory :=
  { m with shared_data := setKey m.shared_data agent_id ⟨data, now, priority, 0⟩ }

/-- `get_shared_data(agent_id)`: on a hit, increments `accessed_count`
and returns the data; on a miss, returns `none` and leaves the state
untouched. -/
def get_shared_data (m : ResearchMemory) (agent_id : String) :
    Option Value × ResearchMemory :=
  match lookupKey m.shared_data agent_id with
  | some e =>
      (some e.data,
       { m with
          shared_data :=
            setKey m.shared_data agent_id
              { e with accessed_count := e.accessed_count + 1 } })
  | none => (none, m)

/-- The dictionary produced by `export_memory` and consumed by
`import_memory`; a section absent from an imported snapshot is `none`. -/
structure MemorySnapshot where
  short_term : Option (List (String × MemoryEntry))
  long_term : Option (List (String × Value))
  shared_data : Option (List (String × SharedEntry))
  export_timestamp : Option String

/-- `export_memory()`: all three sections plus a timestamp. -/
def export_memory (m : ResearchMemory) (now : String) : MemorySnapshot :=
  ⟨some m.short_term, some m.long_term, some m.shared_data, some now⟩

/-- `import_memory(memory_data)`: replace exactly the sections present in
the snapshot. -/
def import_memory (m : ResearchMemory) (snap : MemorySnapshot) : ResearchMemory :=
  { short_term := snap.short_term.getD m.short_term
  , long_term := snap.long_term.getD m.long_term
  , shared_data := snap.shared_data.getD m.shared_data }

/-- One `store_long_term(category, data, operation)` call
(category, data, operation). -/
def runLongTermOps (m : ResearchMemory)
    (ops : List (String × Value × String)) : ResearchMemory :=
  ops.foldl (fun acc o => (store_long_term acc o.1 o.2.1 o.2.2).1) m

/-! ### The analyst heuristics (`analyst.py`) -/

/-- One finding record: `{'finding': ..., 'source': {'title': ...}}`;
`sourceTitle` is `none` when the `source` dict or its `title` key is
absent. -/
structure Finding where
  finding : String
  sourceTitle : Option String

/-- `finding.get('source', \x7b\x7d).get('title', 'Unknown')`. -/
def Finding.titleD (f : Finding) : String := f.sourceTitle.getD "Unknown"

/-- One source record as read by the analyst; `reliability` is `none`
when the key is absent. -/
structure SourceRec where
  title : Option String
  url : Option String
  reliability : Option ℚ

/-- `s.get('reliability', 0.5)`. -/
def SourceRec.reliabilityD (s : SourceRec) : ℚ := s.reliability.getD (1/2)

/-- The keyword set of `_identify_patterns`. -/
def analystKeywords : List String :=
  ["increase", "decrease", "growth", "decline", "improvement", "impact"]

/-- `theme_counts[keyword] = theme_counts.get(keyword, 0) + 1`. -/
def bumpKey (l : List (String × Nat)) (k : String) : List (String × Nat) :=
  setKey l k ((lookupKey l k).getD 0 + 1)

/-- The `theme_counts` dict built by the double loop of
`_identify_patterns`. -/
def themeCounts (findings : List Finding) : List (String × Nat) :=
  findings.foldl
    (fun acc f =>
      let content := strLower f.finding
      analystKeywords.foldl
        (fun acc2 kw => if strContains content kw then bumpKey acc2 kw else acc2)
        acc)
    []

/-- A pattern record emitted by `_identify_patterns`. -/
structure Pattern where
  type : String
  theme : String
  frequency : Nat
  strength : String
deriving DecidableEq

/-- `_identify_patterns(findings)`. -/
def identify_patterns (findings : List Finding) : List Pattern :=
  (themeCounts findings).filterMap
    (fun p =>
      if 2 ≤ p.2 then
        some ⟨"trend", p.1, p.2, if 3 ≤ p.2 then "strong" else "moderate"⟩
      else none)

/-- Number of findings whose lower-cased text contains `kw` (the count
`_identify_patterns` accumulates per keyword). -/
def keywordFreq (findings : List Finding) (kw : String) : Nat :=
  (findings.filter (fun f => strContains (strLower f.finding) kw)).length

/-- A contradiction record emitted by `_find_contradictions`. -/
structure Contradiction where
  type : String
  source1 : String
  source2 : String
  conflict : String
deriving DecidableEq

/-- The `opposing_pairs` lexicon of `_find_contradictions`. -/
def opposingPairs : List (String × String) :=
  [("increase", "decrease"), ("positive", "negative"),
   ("growth", "decline"), ("improvement", "deterioration")]

/-- The inner loop of `_find_contradictions` for one ordered pair of
findings: one record per opposing pair whose terms occur across the two
texts (in either direction); the conflict label always uses the lexicon
order. -/
def contradictionsForPair (f1 f2 : Finding) : List Contradiction :=
  let c1 := strLower f1.finding
  let c2 := strLower f2.finding
  opposingPairs.filterMap
    (fun p =>
      if (strContains c1 p.1 && strContains c2 p.2)
          || (strContains c1 p.2 && strContains c2 p.1) then
        some ⟨"opposing_claims", f1.titleD, f2.titleD, p.1 ++ " vs " ++ p.2⟩
      else none)

/-- `_find_contradictions(findings)`: scan over all index pairs i < j in
order. -/
def find_contradictions : List Finding → List Contradiction
  | [] => []
  | f :: rest =>
      (rest.map (contradictionsForPair f)).flatten ++ find_contradictions rest

/-- The `confidence` dict built by `_calculate_confidence` (its four keys
in insertion order). -/
structure ConfidenceLevels where
  source_reliability : ℚ
  data_completeness : ℚ
  consistency : ℚ
  overall : ℚ

/-- `_calculate_confidence(sources, findings)`: `overall` is computed as
`sum(confidence.values()) / len(confidence)` over the three entries
present at that point. -/
def calculate_confidence (sources : List SourceRec) (findings : List Finding) :
    ConfidenceLevels :=
  let source_reliability : ℚ :=
    if sources.isEmpty then 0
    else (sources.map SourceRec.reliabilityD).sum / (sources.length : ℚ)
  let data_completeness : ℚ := min ((findings.length : ℚ) / 10) 1
  let consistency : ℚ := 8/10
  let overall : ℚ := (source_reliability + data_completeness + consistency) / 3
  ⟨source_reliability, data_completeness, consistency, overall⟩

/-! ### The synthesizer report assembly (`synthesizer.py`) -/

/-- The acronym allow-list of `_generate_title`. -/
def acronyms : List String := ["AI", "ML", "NLP", "API", "URL", "PDF", "CSV"]

/-- `_generate_title(query)`. -/
def generate_title (query : String) : String :=
  let words := pySplitWs (pyStripChar query '?')
  let titled_words :=
    words.map (fun w => if strUpper w ∈ acronyms then strUpper w else pyCapitalize w)
  "Research Report: " ++ String.intercalate " " titled_words

/-- An insight record as read by the synthesizer; `confidence` is `none`
when the key is absent. -/
structure Insight where
  type : String
  content : String
  confidence : Option ℚ

/-- The gatherer output consumed by the synthesizer
(`main_findings`, `sources_used`). -/
structure GatheredInfo where
  main_findings : List Finding
  sources_used : List SourceRec

/-- The analyst output consumed by the synthesizer; `confidence_levels`
is a dict, so keys such as `overall` may be absent. -/
structure AnalysisResults where
  patterns : List Pattern
  insights : List Insight
  contradictions : List Contradiction
  confidence_levels : List (String × ℚ)

/-- `_create_executive_summary(query, gathered_info, analysis_results)`. -/
def create_executive_summary (query : String) (gathered_info : GatheredInfo)
    (analysis_results : AnalysisResults) : String :=
  let part1 :=
    "This report addresses the research query: " ++ squote ++ query ++ squote
  let findings_count := gathered_info.main_findings.length
  let sources_count := gathered_info.sources_used.length
  let part2 :=
    "Based on analysis of " ++ toString sources_count ++ " sources and " ++
      toString findings_count ++ " key findings:"
  let insights := analysis_results.insights
  let high_conf := insights.filter (fun i => i.confidence.getD 0 > 7/10)
  let insightParts : List String :=
    if insights.isEmpty then []
    else if high_conf.isEmpty then []
    else
      ["The analysis revealed " ++ toString high_conf.length ++
        " high-confidence insights."]
  let patterns := analysis_results.patterns
  let strong_patterns := patterns.filter (fun p => p.strength = "strong")
  let patternParts : List String :=
    if patterns.isEmpty then []
    else if strong_patterns.isEmpty then []
    else
      ["Strong patterns identified in: " ++
        String.intercalate ", " (strong_patterns.map Pattern.theme) ++ "."]
  let confidence := (lookupKey analysis_results.confidence_levels "overall").getD 0
  let confPart :=
    if confidence > 7/10 then
      "The findings demonstrate high reliability and consistency."
    else if confidence > 1/2 then
      "The findings show moderate reliability with some variations."
    else
      "Additional research is recommended to strengthen conclusions."
  String.intercalate " " ([part1, part2] ++ insightParts ++ patternParts ++ [confPart])

/-! ### The orchestrator failure path (`research_crew.py`) -/

/-- The dictionary `execute_research` returns to its caller. A success
response has no `error` key (`error = none`); `report` and `metadata`
are dict-valued, `sources` a list of dicts. -/
structure ResearchResponse where
  success : Bool
  query : String
  error : Option String
  report : Value
  sources : List Value
  metadata : List (String × Value)
  execution_time : ℚ

/-- The failure result built by the blanket `except` branch of
`execute_research`. -/
def failureResponse (query error_msg : String) (execution_time : ℚ)
    (now : String) : ResearchResponse :=
  { success := false
  , query := query
  , error := some error_msg
  , report := Value.vMap []
  , sources := []
  , metadata :=
      [ ("total_sources", Value.vInt 0)
      , ("execution_time", Value.vRat execution_time)
      , ("avg_credibility", Value.vInt 0)
      , ("confidence", Value.vInt 0)
      , ("research_date", Value.vStr now) ]
  , execution_time := execution_time }

/-- `execute_research(query)`: the entire `try` body (task creation, the
single external crew kickoff, and result assembly) is abstracted as the
`Except`-valued computation `body`, since it delegates to the external
agent framework; the body is run exactly once, and any exception it
raises reaches the blanket handler, which builds the failure result. -/
def execute_research (query : String) (body : Except String ResearchResponse)
    (execution_time : ℚ) (now : String) : ResearchResponse :=
  match body with
  | Except.ok r => r
  | Except.error e => failureResponse query e execution_time now

/-! ### Concrete inputs from the spec scenarios -/

/-- The end-to-end scenario query. -/
def exQuery : String := "What is AI?"

/-- The end-to-end scenario gatherer output: one finding, one source with
reliability 0.9. -/
def exGathered : GatheredInfo :=
  { main_findings := [⟨"AI is a broad field of computer science", some "Intro to AI"⟩]
  , sources_used :=
      [{ title := some "Intro to AI"
       , url := some "https://example.edu/ai"
       , reliability := some (9/10) }] }

/-- The end-to-end scenario analysis output: only
`confidence_levels.overall = 0.5`. -/
def exAnalysis : AnalysisResults :=
  { patterns := []
  , insights := []
  , contradictions := []
  , confidence_levels := [("overall", 1/2)] }

/-- The moderate-reliability executive-summary sentence. -/
def moderateSentence : String :=
  "The findings show moderate reliability with some variations."

/-- The low-confidence executive-summary sentence. -/
def lowSentence : String :=
  "Additional research is recommended to strengthen conclusions."

/-- The pattern-detection scenario: three findings containing
`increase`. -/
def exFindings3 : List Finding :=
  [⟨"X shows increase", none⟩, ⟨"Y shows increase", none⟩,
   ⟨"Z shows increase", none⟩]

/-- The pattern-detection scenario with a single occurrence. -/
def exFindings1 : List Finding := [⟨"X shows increase", none⟩]

/-- The contradiction-detection scenario findings. -/
def exSalesFindings : List Finding :=
  [⟨"sales increase", some "A"⟩, ⟨"sales decrease", some "B"⟩]

/-! ### Association-list lemmas -/

theorem lookupKey_setKey_self {α : Type} (l : List (String × α)) (k : String)
    (v : α) : lookupKey (setKey l k v) k = some v := by
  induction l with
  | nil => simp [setKey, lookupKey]
  | cons hd tl ih =>
    obtain ⟨k', v'⟩ := hd
    by_cases h : k' = k
    · simp [setKey, h, lookupKey]
    · simp [setKey, h, lookupKey, ih]

theorem lookupKey_setKey_ne {α : Type} (l : List (String × α)) (k k' : String)
    (v : α) (h : k ≠ k') : lookupKey (setKey l k v) k' = lookupKey l k' := by
  induction l with
  | nil => simp [setKey, lookupKey, h]
  | cons hd tl ih =>
    obtain ⟨k0, v0⟩ := hd
    by_cases h0 : k0 = k
    · simp [setKey, h0, lookupKey, h]
    · simp [setKey, h0, lookupKey, ih]

/-! ### Lemmas about `store_long_term` -/

theorem store_long_term_append_on_map (m : ResearchMemory) (cat : String)
    (data : Value) (kvs : List (String × Value))
    (h : lookupKey m.long_term cat = some (Value.vMap kvs)) :
    store_long_term m cat data "append" =
      (m, some (MemError.invalidOperation "append" cat)) := by
  simp [store_long_term, h]

theorem store_long_term_update_on_list (m : ResearchMemory) (cat : String)
    (data : Value) (xs : List Value)
    (h : lookupKey m.long_term cat = some (Value.vList xs)) :
    store_long_term m cat data "update" =
      (m, some (MemError.invalidOperation "update" cat)) := by
  simp [store_long_term, h]

theorem store_long_term_set (m : ResearchMemory) (cat : String) (data : Value) :
    (store_long_term m cat data "set").2 = none ∧
      lookupKey (store_long_term m cat data "set").1.long_term cat = some data := by
  by_cases h : (lookupKey m.long_term cat).isSome <;>
    simp [store_long_term, h, lookupKey_setKey_self]

/-- C2: `store_long_term` fails with an invalid-operation error when
`append` is applied to a category whose current value is map-typed, or
`update` is applied to a category whose current value is list-typed;
the `set` operation always succeeds and replaces the category's value
outright. -/
theorem store_long_term_invalid_ops (m : ResearchMemory) (category : String)
    (data : Value) :
    (∀ kvs, lookupKey m.long_term category = some (Value.vMap kvs) →
      (store_long_term m category data "append").2 =
        some (MemError.invalidOperation "append" category)) ∧
    (∀ xs, lookupKey m.long_term category = some (Value.vList xs) →
      (store_long_term m category data "update").2 =
        some (MemError.invalidOperation "update" category)) ∧
    ((store_long_term m category data "set").2 = none ∧
      lookupKey (store_long_term m category data "set").1.long_term category =
        some data) := by
  refine ⟨fun kvs h => ?_, fun xs h => ?_, store_long_term_set m category data⟩
  · rw [store_long_term_append_on_map m category data kvs h]
  · rw [store_long_term_update_on_list m category data xs h]

/-- C2 witness: on the initial store, `append` to the map-typed
`topic_knowledge` raises, `update` to the list-typed `reliable_sources`
raises, `set` succeeds. -/
theorem store_long_term_invalid_ops_witness :
    (store_long_term initMemory "topic_knowledge" (Value.vStr "x") "append").2 =
      some (MemError.invalidOperation "append" "topic_knowledge") ∧
    (store_long_term initMemory "reliable_sources" (Value.vStr "x") "update").2 =
      some (MemError.invalidOperation "update" "reliable_sources") ∧
    (store_long_term initMemory "reliable_sources" (Value.vStr "x") "set").2 =
      none :=
  ⟨(store_long_term_invalid_ops initMemory "topic_knowledge" (Value.vStr "x")).1
      [] rfl,
   (store_long_term_invalid_ops initMemory "reliable_sources" (Value.vStr "x")).2.1
      [] rfl,
   (store_long_term_invalid_ops initMemory "reliable_sources" (Value.vStr "x")).2.2.1⟩

/-- C10: a failing `store_long_term` call is atomic only for pre-existing
categories.  When the category exists and the call raises (`append` on a
map-typed or `update` on a list-typed value), the whole store is
unchanged; but an invalid operation name on an absent category first
auto-creates the category as an empty map and then raises, leaving the
empty category behind (short-term and shared sections untouched). -/
theorem store_long_term_partial_atomicity (m : ResearchMemory) (cat : String)
    (data : Value) :
    (∀ kvs, lookupKey m.long_term cat = some (Value.vMap kvs) →
      (store_long_term m cat data "append").1 = m) ∧
    (∀ xs, lookupKey m.long_term cat = some (Value.vList xs) →
      (store_long_term m cat data "update").1 = m) ∧
    (∀ op, lookupKey m.long_term cat = none →
      op ≠ "append" → op ≠ "update" → op ≠ "set" →
      (store_long_term m cat data op).2 = some (MemError.invalidOperation op cat) ∧
      lookupKey (store_long_term m cat data op).1.long_term cat =
        some (Value.vMap []) ∧
      (store_long_term m cat data op).1.short_term = m.short_term ∧
      (store_long_term m cat data op).1.shared_data = m.shared_data) := by
  refine ⟨fun kvs h => ?_, fun xs h => ?_, fun op h h1 h2 h3 => ?_⟩
  · rw [store_long_term_append_on_map m cat data kvs h]
  · rw [store_long_term_update_on_list m cat data xs h]
  · simp [store_long_term, h, h1, h2, h3, lookupKey_setKey_self]

/-- C10 witness: on the initial store, a bogus operation name on a fresh
category raises and leaves a newly created empty map category behind,
while a failing `append` on the pre-existing map-typed `topic_knowledge`
leaves everything unchanged. -/
theorem store_long_term_partial_atomicity_witness :
    (store_long_term initMemory "topic_knowledge" (Value.vStr "x") "append").1 =
      initMemory ∧
    (store_long_term initMemory "brand_new" (Value.vStr "x") "replace").2 =
      some (MemError.invalidOperation "replace" "brand_new") ∧
    lookupKey (store_long_term initMemory "brand_new" (Value.vStr "x")
        "replace").1.long_term "brand_new" = some (Value.vMap []) :=
  ⟨(store_long_term_partial_atomicity initMemory "topic_knowledge"
      (Value.vStr "x")).1 [] rfl,
   ((store_long_term_partial_atomicity initMemory "brand_new"
      (Value.vStr "x")).2.2 "replace" rfl (by decide) (by decide) (by decide)).1,
   ((store_long_term_partial_atomicity initMemory "brand_new"
      (Value.vStr "x")).2.2 "replace" rfl (by decide) (by decide) (by decide)).2.1⟩

/-- C6: after `share_data` the entry's `accessed_count` is 0; each
`get_shared_data` hit returns the shared data and increments the count
by exactly one (0, then 1, then 2 across two reads); a miss returns the
not-found sentinel and leaves the whole memory state unchanged. -/
theorem shared_data_access_counting (m : ResearchMemory) (agent : String)
    (data : Value) (priority now : String) :
    ((lookupKey (share_data m agent data priority now).shared_data agent).map
        SharedEntry.accessed_count = some 0) ∧
    (get_shared_data (share_data m agent data priority now) agent).1 =
      some data ∧
    ((lookupKey (get_shared_data (share_data m agent data priority now)
          agent).2.shared_data agent).map SharedEntry.accessed_count = some 1) ∧
    (get_shared_data (get_shared_data (share_data m agent data priority now)
        agent).2 agent).1 = some data ∧
    ((lookupKey (get_shared_data (get_shared_data
          (share_data m agent data priority now) agent).2 agent).2.shared_data
        agent).map SharedEntry.accessed_count = some 2) ∧
    (∀ (m' : ResearchMemory) (a : String),
      lookupKey m'.shared_data a = none → get_shared_data m' a = (none, m')) := by
  refine ⟨?_, ?_, ?_, ?_, ?_, fun m' a h => ?_⟩ <;>
    simp [share_data, get_shared_data, lookupKey_setKey_self, *]

/-- C6 witness: a concrete share followed by two reads on a fresh store,
plus a miss on an unknown agent. -/
theorem shared_data_access_counting_witness :
    (get_shared_data (share_data initMemory "gatherer" (Value.vStr "d")
        "normal" "t0") "gatherer").1 = some (Value.vStr "d") ∧
    ((lookupKey (get_shared_data (get_shared_data (share_data initMemory
          "gatherer" (Value.vStr "d") "normal" "t0") "gatherer").2
        "gatherer").2.shared_data "gatherer").map SharedEntry.accessed_count =
      some 2) ∧
    get_shared_data initMemory "unknown_agent" = (none, initMemory) :=
  ⟨(shared_data_access_counting initMemory "gatherer" (Value.vStr "d")
      "normal" "t0").2.1,
   (shared_data_access_counting initMemory "gatherer" (Value.vStr "d")
      "normal" "t0").2.2.2.2.1,
   (shared_data_access_counting initMemory "gatherer" (Value.vStr "d")
      "normal" "t0").2.2.2.2.2 initMemory "unknown_agent" rfl⟩

/-- C7: export/import round trip.  Importing `A`'s export into any store
`B` makes `get_short_term`, `get_long_term` and the data component of
`get_shared_data` on the result agree with `A` on every key; and
`import_memory` replaces only the sections present in the snapshot,
leaving an absent section of the importing store untouched. -/
theorem export_import_roundtrip (A B : ResearchMemory) (ts : String) :
    (∀ k, get_short_term (import_memory B (export_memory A ts)) k =
      get_short_term A k) ∧
    (∀ c, get_long_term (import_memory B (export_memory A ts)) c =
      get_long_term A c) ∧
    (∀ a, (get_shared_data (import_memory B (export_memory A ts)) a).1 =
      (get_shared_data A a).1) ∧
    (∀ snap : MemorySnapshot, snap.short_term = none →
      (import_memory B snap).short_term = B.short_term) ∧
    (∀ snap : MemorySnapshot, snap.long_term = none →
      (import_memory B snap).long_term = B.long_term) ∧
    (∀ snap : MemorySnapshot, snap.shared_data = none →
      (import_memory B snap).shared_data = B.shared_data) := by
  refine ⟨fun k => ?_, fun c => ?_, fun a => ?_, fun snap h => ?_,
    fun snap h => ?_, fun snap h => ?_⟩ <;>
    simp [import_memory, export_memory, get_short_term, get_long_term,
      get_shared_data, *]

/-- C7 witness: a concrete round trip between two small stores, and a
partial snapshot leaving the short-term section of the target untouched. -/
theorem export_import_roundtrip_witness :
    get_long_term (import_memory initMemory (export_memory
      (share_data initMemory "a1" (Value.vStr "v") "high" "t") "te"))
      "reliable_sources" =
      get_long_term (share_data initMemory "a1" (Value.vStr "v") "high" "t")
        "reliable_sources" ∧
    (import_memory (share_data initMemory "a1" (Value.vStr "v") "high" "t")
      ⟨none, some [], none, none⟩).short_term =
      (share_data initMemory "a1" (Value.vStr "v") "high" "t").short_term :=
  ⟨(export_import_roundtrip (share_data initMemory "a1" (Value.vStr "v")
      "high" "t") initMemory "te").2.1 "reliable_sources",
   (export_import_roundtrip (share_data initMemory "a1" (Value.vStr "v")
      "high" "t") (share_data initMemory "a1" (Value.vStr "v") "high" "t")
      "te").2.2.2.1 ⟨none, some [], none, none⟩ rfl⟩

/-- C9: whenever the research run raises, `execute_research` returns a
structured failure result: `success = false`, the error message string,
the elapsed execution time, an empty report and no sources. -/
theorem execute_research_failure (query e : String) (t : ℚ) (now : String) :
    (execute_research query (Except.error e) t now).success = false ∧
    (execute_research query (Except.error e) t now).error = some e ∧
    (execute_research query (Except.error e) t now).execution_time = t ∧
    (execute_research query (Except.error e) t now).report = Value.vMap [] ∧
    (execute_research query (Except.error e) t now).sources = [] := by
  simp [execute_research, failureResponse]

/-- C3: the analyst confidence computation: `source_reliability` is the
mean of the per-source reliability values (0 with no sources),
`data_completeness` is `min(findings_count / 10, 1)`, `consistency` is
the constant 0.8 (the contradiction count is not even an input), and
`overall` is the unweighted arithmetic mean of the three components. -/
theorem calculate_confidence_spec (sources : List SourceRec)
    (findings : List Finding) :
    (sources = [] → (calculate_confidence sources findings).source_reliability = 0) ∧
    (sources ≠ [] →
      (calculate_confidence sources findings).source_reliability =
        (sources.map SourceRec.reliabilityD).sum / (sources.length : ℚ)) ∧
    (calculate_confidence sources findings).data_completeness =
      min ((findings.length : ℚ) / 10) 1 ∧
    (calculate_confidence sources findings).consistency = 8/10 ∧
    (calculate_confidence sources findings).overall =
      ((calculate_confidence sources findings).source_reliability +
        (calculate_confidence sources findings).data_completeness +
        (calculate_confidence sources findings).consistency) / 3 := by
  refine ⟨fun h => ?_, fun h => ?_, ?_, ?_, ?_⟩ <;>
    simp [calculate_confidence, List.isEmpty_iff, *]

/-- C3 witness: one source of reliability 0.9 and no findings. -/
theorem calculate_confidence_spec_witness :
    (calculate_confidence [⟨some "Intro to AI", none, some (9/10)⟩] []).source_reliability =
      (([⟨some "Intro to AI", none, some (9/10)⟩] : List SourceRec).map
        SourceRec.reliabilityD).sum / (1 : ℚ) ∧
    (calculate_confidence [] []).source_reliability = 0 :=
  ⟨(calculate_confidence_spec [⟨some "Intro to AI", none, some (9/10)⟩] []).2.1
      (by simp),
   (calculate_confidence_spec [] []).1 rfl⟩

theorem store_long_term_lookup_other (m : ResearchMemory) (c : String)
    (data : Value) (op : String) (cat : String) (h : c ≠ cat) :
    lookupKey (store_long_term m c data op).1.long_term cat =
      lookupKey m.long_term cat := by
  simp only [store_long_term]
  repeat' split
  all_goals simp [lookupKey_setKey_ne, h]

theorem store_long_term_preserves_types (m : ResearchMemory) (c : String)
    (data : Value) (op : String) (hop : op = "append" ∨ op = "update")
    (cat : String) :
    (∀ xs, lookupKey m.long_term cat = some (Value.vList xs) →
      ∃ ys, lookupKey (store_long_term m c data op).1.long_term cat =
        some (Value.vList ys)) ∧
    (∀ kvs, lookupKey m.long_term cat = some (Value.vMap kvs) →
      ∃ kvs2, lookupKey (store_long_term m c data op).1.long_term cat =
        some (Value.vMap kvs2)) := by
  by_cases hc : c = cat
  · subst hc
    rcases hop with hop | hop <;> subst hop
    · constructor
      · intro xs h
        exact ⟨xs ++ [data], by simp [store_long_term, h, lookupKey_setKey_self]⟩
      · intro kvs h
        refine ⟨kvs, ?_⟩
        rw [store_long_term_append_on_map m c data kvs h]
        exact h
    · constructor
      · intro xs h
        refine ⟨xs, ?_⟩
        rw [store_long_term_update_on_list m c data xs h]
        exact h
      · intro kvs h
        cases data with
        | vMap dkvs =>
            exact ⟨updateKeys kvs dkvs,
              by simp [store_long_term, h, lookupKey_setKey_self]⟩
        | vNone => exact ⟨kvs, by simp [store_long_term, h]⟩
        | vBool b => exact ⟨kvs, by simp [store_long_term, h]⟩
        | vInt i => exact ⟨kvs, by simp [store_long_term, h]⟩
        | vRat q => exact ⟨kvs, by simp [store_long_term, h]⟩
        | vStr s => exact ⟨kvs, by simp [store_long_term, h]⟩
        | vList l => exact ⟨kvs, by simp [store_long_term, h]⟩
  · constructor <;> intro v h <;>
      exact ⟨v, by rw [store_long_term_lookup_other m c data op cat hc]; exact h⟩

/-- C8: long-term typing invariant.  Over any sequence of
`store_long_term` calls restricted to `append` and `update`, a category
that holds a list-typed (resp. map-typed) value keeps that type; only a
`set` call replaces the category's value with arbitrary data. -/
theorem long_term_type_invariant (m : ResearchMemory)
    (ops : List (String × Value × String)) (cat : String)
    (hops : ∀ o ∈ ops, o.2.2 = "append" ∨ o.2.2 = "update") :
    (∀ xs, lookupKey m.long_term cat = some (Value.vList xs) →
      ∃ ys, lookupKey (runLongTermOps m ops).long_term cat =
        some (Value.vList ys)) ∧
    (∀ kvs, lookupKey m.long_term cat = some (Value.vMap kvs) →
      ∃ kvs2, lookupKey (runLongTermOps m ops).long_term cat =
        some (Value.vMap kvs2)) ∧
    (∀ data, lookupKey (store_long_term m cat data "set").1.long_term cat =
      some data) := by
  induction ops generalizing m with
  | nil =>
    exact ⟨fun xs h => ⟨xs, h⟩, fun kvs h => ⟨kvs, h⟩,
      fun data => (store_long_term_set m cat data).2⟩
  | cons o t ih =>
    have ho := hops o (List.mem_cons_self o t)
    have hstep := store_long_term_preserves_types m o.1 o.2.1 o.2.2 ho cat
    have ht : ∀ o' ∈ t, o'.2.2 = "append" ∨ o'.2.2 = "update" :=
      fun o' h' => hops o' (List.mem_cons_of_mem o h')
    refine ⟨fun xs h => ?_, fun kvs h => ?_,
      fun data => (store_long_term_set m cat data).2⟩
    · obtain ⟨ys, hy⟩ := hstep.1 xs h
      exact (ih _ ht).1 ys hy
    · obtain ⟨kvs2, hy⟩ := hstep.2 kvs h
      exact (ih _ ht).2.1 kvs2 hy

/-- C8 witness: appends and updates on the initial store keep
`reliable_sources` list-typed and `topic_knowledge` map-typed. -/
theorem long_term_type_invariant_witness :
    (∃ ys, lookupKey (ResearchMemory.long_term (runLongTermOps initMemory
        [("reliable_sources", Value.vStr "s", "append"),
         ("topic_knowledge", Value.vMap [("k", Value.vStr "v")], "update")]))
        "reliable_sources" = some (Value.vList ys)) ∧
    (∃ kvs, lookupKey (ResearchMemory.long_term (runLongTermOps initMemory
        [("reliable_sources", Value.vStr "s", "append"),
         ("topic_knowledge", Value.vMap [("k", Value.vStr "v")], "update")]))
        "topic_knowledge" = some (Value.vMap kvs)) :=
  ⟨(long_term_type_invariant initMemory
      [("reliable_sources", Value.vStr "s", "append"),
       ("topic_knowledge", Value.vMap [("k", Value.vStr "v")], "update")]
      "reliable_sources" (by decide)).1 [] rfl,
   (long_term_type_invariant initMemory
      [("reliable_sources", Value.vStr "s", "append"),
       ("topic_knowledge", Value.vMap [("k", Value.vStr "v")], "update")]
      "topic_knowledge" (by decide)).2.1 [] rfl⟩

/-- C4: contradiction detection examines every ordered index pair of
findings and flags a contradiction whenever, for some opposing pair in
the lexicon, one finding's lower-cased text contains one term and the
other finding's text contains its antonym (in either direction); the
emitted record carries the two source titles and the conflict label in
lexicon order. -/
theorem contradiction_pairwise_detection (findings : List Finding)
    (f1 f2 : Finding) (hsub : List.Sublist [f1, f2] findings) (t1 t2 : String)
    (hp : (t1, t2) ∈ opposingPairs)
    (hc : (strContains (strLower f1.finding) t1 = true ∧
           strContains (strLower f2.finding) t2 = true) ∨
          (strContains (strLower f1.finding) t2 = true ∧
           strContains (strLower f2.finding) t1 = true)) :
    (⟨"opposing_claims", f1.titleD, f2.titleD, t1 ++ " vs " ++ t2⟩ :
      Contradiction) ∈ find_contradictions findings := by
  induction findings with
  | nil => cases hsub
  | cons hd tl ih =>
    show _ ∈ (tl.map (contradictionsForPair hd)).flatten ++ find_contradictions tl
    cases hsub with
    | cons a h => exact List.mem_append_right _ (ih h)
    | cons₂ a h =>
      apply List.mem_append_left
      have hf2 : f2 ∈ tl := List.singleton_sublist.mp h
      apply List.mem_flatten.mpr
      refine ⟨contradictionsForPair f1 f2, List.mem_map_of_mem _ hf2, ?_⟩
      have hcond : ((strContains (strLower f1.finding) t1 &&
            strContains (strLower f2.finding) t2)
          || (strContains (strLower f1.finding) t2 &&
            strContains (strLower f2.finding) t1)) = true := by
        rcases hc with ⟨h1, h2⟩ | ⟨h1, h2⟩ <;> simp [h1, h2]
      apply List.mem_filterMap.mpr
      exact ⟨(t1, t2), hp, by simp [hcond]⟩

/-- C4 witness: the findings "sales increase" and "sales decrease" yield
exactly one contradiction, with conflict "increase vs decrease". -/
theorem contradiction_pairwise_detection_witness :
    find_contradictions exSalesFindings =
      [⟨"opposing_claims", "A", "B", "increase vs decrease"⟩] ∧
    (⟨"opposing_claims", "A", "B", "increase vs decrease"⟩ : Contradiction) ∈
      find_contradictions exSalesFindings :=
  ⟨rfl,
   contradiction_pairwise_detection exSalesFindings
     ⟨"sales increase", some "A"⟩ ⟨"sales decrease", some "B"⟩
     (List.Sublist.refl _) "increase" "decrease" (by decide)
     (Or.inl ⟨by decide, by decide⟩)⟩

/-! ### Lemmas about the theme-count dictionary of `_identify_patterns` -/

theorem lookupKey_bumpKey_self (l : List (String × Nat)) (k : String) :
    lookupKey (bumpKey l k) k = some ((lookupKey l k).getD 0 + 1) := by
  simp [bumpKey, lookupKey_setKey_self]

theorem lookupKey_bumpKey_ne (l : List (String × Nat)) (k k' : String)
    (h : k ≠ k') : lookupKey (bumpKey l k) k' = lookupKey l k' := by
  simp [bumpKey, lookupKey_setKey_ne _ _ _ _ h]

theorem countOf_keywordPass (c : String) (kw : String) :
    ∀ (kws : List String), kws.Nodup → ∀ (acc : List (String × Nat)),
      (lookupKey (kws.foldl
          (fun a k => if strContains c k = true then bumpKey a k else a) acc)
        kw).getD 0
        = (lookupKey acc kw).getD 0 +
          (if kw ∈ kws ∧ strContains c kw = true then 1 else 0) := by
  intro kws
  induction kws with
  | nil => intro _ acc; simp
  | cons k t ih =>
    intro hnd acc
    obtain ⟨hk, hnd'⟩ := List.nodup_cons.mp hnd
    simp only [List.foldl_cons]
    rw [ih hnd' (if strContains c k = true then bumpKey acc k else acc)]
    by_cases hkw : kw = k
    · subst hkw
      have ht : ¬(kw ∈ t ∧ strContains c kw = true) := fun hx => hk hx.1
      by_cases hcc : strContains c kw = true
      · simp [hcc, lookupKey_bumpKey_self, ht, hk]
      · simp [hcc, ht]
    · by_cases hcc : strContains c k = true
      · simp [hcc, lookupKey_bumpKey_ne _ _ _ (Ne.symm hkw), hkw, List.mem_cons]
      · simp [hcc, hkw, List.mem_cons]

theorem keywordFreq_cons (f : Finding) (t : List Finding) (kw : String) :
    keywordFreq (f :: t) kw =
      (if strContains (strLower f.finding) kw = true then 1 else 0) +
        keywordFreq t kw := by
  by_cases hc : strContains (strLower f.finding) kw = true <;>
    simp [keywordFreq, List.filter_cons, hc, Nat.add_comm]

theorem countOf_themeCounts (findings : List Finding) (kw : String) :
    (lookupKey (themeCounts findings) kw).getD 0 =
      if kw ∈ analystKeywords then keywordFreq findings kw else 0 := by
  suffices h : ∀ (acc : List (String × Nat)),
      (lookupKey (findings.foldl
          (fun acc2 f =>
            analystKeywords.foldl
              (fun a k =>
                if strContains (strLower f.finding) k = true then bumpKey a k
                else a)
              acc2)
          acc) kw).getD 0
        = (lookupKey acc kw).getD 0 +
          (if kw ∈ analystKeywords then keywordFreq findings kw else 0) by
    simpa [themeCounts, lookupKey] using h []
  induction findings with
  | nil => intro acc; simp [keywordFreq]
  | cons f t ih =>
    intro acc
    simp only [List.foldl_cons]
    rw [ih, countOf_keywordPass (strLower f.finding) kw analystKeywords (by decide),
      keywordFreq_cons]
    by_cases h1 : kw ∈ analystKeywords <;>
      by_cases h2 : strContains (strLower f.finding) kw = true <;>
        simp +arith [h1, h2]

theorem lookupKey_eq_some_of_mem_nodup {α : Type} (l : List (String × α))
    (k : String) (v : α) (hmem : (k, v) ∈ l)
    (hnd : (l.map Prod.fst).Nodup) : lookupKey l k = some v := by
  induction l with
  | nil => cases hmem
  | cons hd tl ih =>
    obtain ⟨k0, v0⟩ := hd
    rw [List.map_cons, List.nodup_cons] at hnd
    rcases List.mem_cons.mp hmem with heq | hmem'
    · cases heq
      simp [lookupKey]
    · have hk : k0 ≠ k := by
        intro h
        subst h
        exact hnd.1 (List.mem_map.mpr ⟨(k0, v), hmem', rfl⟩)
      simp [lookupKey, hk, ih hmem' hnd.2]

theorem mem_of_lookupKey_eq_some {α : Type} (l : List (String × α))
    (k : String) (v : α) (h : lookupKey l k = some v) : (k, v) ∈ l := by
  induction l with
  | nil => simp [lookupKey] at h
  | cons hd tl ih =>
    obtain ⟨k0, v0⟩ := hd
    by_cases hk : k0 = k
    · subst hk
      simp [lookupKey] at h
      subst h
      exact List.mem_cons_self _ _
    · simp [lookupKey, hk] at h
      exact List.mem_cons_of_mem _ (ih h)

theorem map_fst_setKey {α : Type} (l : List (String × α)) (k : String) (v : α) :
    (setKey l k v).map Prod.fst =
      if k ∈ l.map Prod.fst then l.map Prod.fst else l.map Prod.fst ++ [k] := by
  induction l with
  | nil => simp [setKey]
  | cons hd tl ih =>
    obtain ⟨k0, v0⟩ := hd
    by_cases h : k0 = k
    · simp [setKey, h, List.mem_cons]
    · have h' : ¬(k = k0) := fun hh => h hh.symm
      by_cases hm : k ∈ tl.map Prod.fst <;> simp [setKey, h, h', hm, ih]

theorem nodup_map_fst_setKey {α : Type} (l : List (String × α)) (k : String)
    (v : α) (h : (l.map Prod.fst).Nodup) :
    ((setKey l k v).map Prod.fst).Nodup := by
  rw [map_fst_setKey]
  by_cases hm : k ∈ l.map Prod.fst <;> simp [hm, h, List.nodup_append]

theorem mem_setKey {α : Type} (l : List (String × α)) (k : String) (v : α)
    (p : String × α) (h : p ∈ setKey l k v) : p ∈ l ∨ p.1 = k := by
  induction l with
  | nil =>
    simp [setKey] at h
    exact Or.inr (by rw [h])
  | cons hd tl ih =>
    obtain ⟨k0, v0⟩ := hd
    by_cases h0 : k0 = k
    · simp only [setKey, h0, if_pos] at h
      rcases List.mem_cons.mp h with h | h
      · exact Or.inr (by rw [h])
      · exact Or.inl (List.mem_cons_of_mem _ h)
    · simp only [setKey, h0, if_neg, not_false_iff] at h
      rcases List.mem_cons.mp h with h | h
      · exact Or.inl (by simp [h])
      · rcases ih h with h' | h'
        · exact Or.inl (List.mem_cons_of_mem _ h')
        · exact Or.inr h'

theorem themeCounts_keys_props (findings : List Finding) :
    ((themeCounts findings).map Prod.fst).Nodup ∧
      ∀ p ∈ themeCounts findings, p.1 ∈ analystKeywords := by
  have hpass : ∀ (c : String) (kws : List String) (acc : List (String × Nat)),
      (∀ k ∈ kws, k ∈ analystKeywords) →
      (acc.map Prod.fst).Nodup → (∀ p ∈ acc, p.1 ∈ analystKeywords) →
      (((kws.foldl
          (fun a k => if strContains c k = true then bumpKey a k else a)
          acc)).map Prod.fst).Nodup ∧
        ∀ p ∈ kws.foldl
            (fun a k => if strContains c k = true then bumpKey a k else a) acc,
          p.1 ∈ analystKeywords := by
    intro c kws
    induction kws with
    | nil => intro acc _ h1 h2; exact ⟨h1, h2⟩
    | cons k t ih =>
      intro acc hkws h1 h2
      simp only [List.foldl_cons]
      apply ih
      · intro k' hk'
        exact hkws k' (List.mem_cons_of_mem _ hk')
      · by_cases hc : strContains c k = true
        · simpa [hc, bumpKey] using nodup_map_fst_setKey acc k _ h1
        · simpa [hc] using h1
      · intro p hp
        by_cases hc : strContains c k = true
        · rw [if_pos hc] at hp
          rcases mem_setKey acc k _ p hp with h' | h'
          · exact h2 p h'
          · rw [h']
            exact hkws k (List.mem_cons_self _ _)
        · rw [if_neg (by simpa using hc)] at hp
          exact h2 p hp
  suffices h : ∀ (fs : List Finding) (acc : List (String × Nat)),
      (acc.map Prod.fst).Nodup → (∀ p ∈ acc, p.1 ∈ analystKeywords) →
      (((fs.foldl
          (fun acc2 f =>
            analystKeywords.foldl
              (fun a k =>
                if strContains (strLower f.finding) k = true then bumpKey a k
                else a)
              acc2)
          acc)).map Prod.fst).Nodup ∧
        ∀ p ∈ fs.foldl
            (fun acc2 f =>
              analystKeywords.foldl
                (fun a k =>
                  if strContains (strLower f.finding) k = true then bumpKey a k
                  else a)
                acc2)
            acc,
          p.1 ∈ analystKeywords by
    simpa [themeCounts] using h findings [] (by simp) (by simp)
  intro fs
  induction fs with
  | nil => intro acc h1 h2; exact ⟨h1, h2⟩
  | cons f t ih =>
    intro acc h1 h2
    simp only [List.foldl_cons]
    obtain ⟨h1', h2'⟩ :=
      hpass (strLower f.finding) analystKeywords acc (fun k hk => hk) h1 h2
    exact ih _ h1' h2'

/-- C5: pattern detection emits a pattern for a keyword of the fixed
lexicon exactly when the keyword occurs (case-insensitive substring) in
at least 2 of the findings; a pattern's frequency is the number of
findings containing its keyword, and its strength is "strong" when the
frequency is at least 3, else "moderate". -/
theorem pattern_detection_spec (findings : List Finding) (kw : String) :
    ((∃ p ∈ identify_patterns findings, p.theme = kw) ↔
      (kw ∈ analystKeywords ∧ 2 ≤ keywordFreq findings kw)) ∧
    (∀ p ∈ identify_patterns findings,
      p.frequency = keywordFreq findings p.theme ∧
      p.strength = (if 3 ≤ p.frequency then "strong" else "moderate")) := by
  obtain ⟨hnd, hmem⟩ := themeCounts_keys_props findings
  constructor
  · constructor
    · rintro ⟨p, hp, rfl⟩
      obtain ⟨⟨k0, n0⟩, hkn, hf⟩ := List.mem_filterMap.mp hp
      by_cases h2 : 2 ≤ n0
      · simp only [h2, if_pos, Option.some.injEq] at hf
        subst hf
        have hl := lookupKey_eq_some_of_mem_nodup _ _ _ hkn hnd
        have hc := countOf_themeCounts findings k0
        have hk0 : k0 ∈ analystKeywords := hmem _ hkn
        rw [hl, if_pos hk0] at hc
        simp only [Option.getD_some] at hc
        exact ⟨hk0, hc ▸ h2⟩
      · simp [h2] at hf
    · rintro ⟨hkw, h2⟩
      have hc := countOf_themeCounts findings kw
      rw [if_pos hkw] at hc
      have hl : lookupKey (themeCounts findings) kw =
          some (keywordFreq findings kw) := by
        cases hx : lookupKey (themeCounts findings) kw with
        | none => rw [hx] at hc; simp at hc; omega
        | some n => rw [hx] at hc; simp at hc; rw [hc]
      refine ⟨⟨"trend", kw, keywordFreq findings kw,
        if 3 ≤ keywordFreq findings kw then "strong" else "moderate"⟩, ?_, rfl⟩
      exact List.mem_filterMap.mpr
        ⟨(kw, keywordFreq findings kw), mem_of_lookupKey_eq_some _ _ _ hl,
         by simp [h2]⟩
  · intro p hp
    obtain ⟨⟨k0, n0⟩, hkn, hf⟩ := List.mem_filterMap.mp hp
    by_cases h2 : 2 ≤ n0
    · simp only [h2, if_pos, Option.some.injEq] at hf
      have hl := lookupKey_eq_some_of_mem_nodup _ _ _ hkn hnd
      have hc := countOf_themeCounts findings k0
      rw [hl, if_pos (hmem _ hkn)] at hc
      simp only [Option.getD_some] at hc
      subst hf
      exact ⟨by simpa using hc, rfl⟩
    · simp [h2] at hf

/-- C5 witness: three findings containing "increase" yield the single
pattern (frequency 3, strength "strong"); a single occurrence yields no
pattern. -/
theorem pattern_detection_spec_witness :
    identify_patterns exFindings3 =
      [⟨"trend", "increase", 3, "strong"⟩] ∧
    identify_patterns exFindings1 = [] ∧
    (∃ p ∈ identify_patterns exFindings3, p.theme = "increase") :=
  ⟨rfl, rfl,
   (pattern_detection_spec exFindings3 "increase").1.mpr ⟨by decide, by decide⟩⟩

set_option maxRecDepth 8192 in
theorem exec_summary_eval :
    create_executive_summary exQuery exGathered exAnalysis =
      "This report addresses the research query: " ++ squote ++ "What is AI?" ++
        squote ++
        " Based on analysis of 1 sources and 1 key findings: Additional research is recommended to strengthen conclusions." := by
  simp only [create_executive_summary, exQuery, exGathered, exAnalysis, lookupKey]
  norm_num
  decide

/-- C1 counterexample: at the spec's end-to-end scenario input (overall
confidence exactly 0.5) the executive summary does not contain the
moderate-reliability sentence: the moderate branch requires overall
strictly greater than 0.5, so 0.5 falls into the low-confidence branch. -/
theorem end_to_end_scenario_counterexample :
    strContains (create_executive_summary exQuery exGathered exAnalysis)
      moderateSentence = false := by
  rw [exec_summary_eval]
  decide

/-- C1 (amended): for the end-to-end scenario input the title is
"Research Report: What Is AI" and the executive summary contains
"1 sources and 1 key findings"; but with overall confidence exactly 0.5
the summary contains the low-confidence sentence, not the
moderate-reliability one. -/
theorem end_to_end_scenario :
    generate_title exQuery = "Research Report: What Is AI" ∧
    strContains (create_executive_summary exQuery exGathered exAnalysis)
      "1 sources and 1 key findings" = true ∧
    strContains (create_executive_summary exQuery exGathered exAnalysis)
      lowSentence = true ∧
    strContains (create_executive_summary exQuery exGathered exAnalysis)
      moderateSentence = false := by
  refine ⟨by decide, ?_, ?_, ?_⟩ <;> rw [exec_summary_eval] <;> decide
